import Mathlib

/-!
Verification development for the go-biz credential and session state engine
(packages `verification` and `authorization`), against a shallow embedding of
the Redis-backed code.

Conventions of the embedding:
* the Redis store is modelled by total functions from keys to optional
  entries; every entry carries an optional absolute expiry, and reads go
  through a live view that drops entries whose expiry has passed, which is
  how Redis lazy expiry behaves;
* time is an explicit `Nat` parameter: milliseconds on the verification side
  (the Lua script works in `PX`/`PTTL` milliseconds) and seconds on the
  session side (the session code works with `EXPIREAT` unix seconds);
* fallible Go functions return `Except`; store transport failures are out of
  scope, so operations that can only fail in transport always return `.ok`;
* gob serialization of a credential is modelled by a record of the fields gob
  actually transmits.  A struct field of func type is ignored by gob exactly
  like an unexported field, so the `Format`/`format` function field is not
  part of the serialized record and decodes to `none`;
* the code generator and the SMS sender are oracles: the generator output is
  a `CodeFactoryOutput` argument and the sender outcome a `Bool` argument;
* `SendMobileOTP` and `VerifyMobileOTP` also return the list of collaborator
  calls they performed, so that claims about which collaborators were not
  invoked are statable.
-/

namespace GoBiz

/-- Point update of a store modelled as a total function into `Option`. -/

def updateFn {α β : Type} [DecidableEq α] (f : α → Option β) (k : α) (v : Option β) :
    α → Option β :=
  fun x => if x = k then v else f x

/-- Model of Go `strings.ToUpper`: character-wise upper-casing. -/

def goToUpper (s : String) : String :=
  ⟨s.data.map Char.toUpper⟩

/-- Errors of the `verification` package surfaced by the embedded flows.
`invalidWindowDuration` and `invalidLimit` model the two `fmt.Errorf` cases of
`evalFixedWindow`; `smsSendFailed` stands for an arbitrary sender error. -/

inductive VerificationError where
  | codeNotFound
  | codeTypeIsEmpty
  | codeIncorrect
  | mobileSendLimitExceeded
  | mobileVerifyLimitExceeded
  | smsSendFailed
  | invalidWindowDuration
  | invalidLimit
  deriving DecidableEq, Repr

/-- `LimitDecision` of cache.go: the result of one fixed-window evaluation.
`ResetIn` is in milliseconds. -/

structure LimitDecision where
  Allowed : Bool
  Count : Int
  Limit : Int
  ResetIn : Int
  deriving DecidableEq, Repr

/-- A stored counter key: its integer value plus its optional absolute expiry
in milliseconds (`none` models a key without TTL). -/

structure CounterEntry where
  value : Nat
  expireAtMs : Option Nat
  deriving DecidableEq, Repr

/-- Redis lazy expiry for counter keys: the key is visible at `now` iff it has
no TTL or its expiry is still in the future. -/

def liveCounter (now : Nat) : Option CounterEntry → Option CounterEntry
  | none => none
  | some e =>
    match e.expireAtMs with
    | none => some e
    | some t => if now < t then some e else none

/-- The Lua `fixedWindowScript` of cache.go: `SET key 0 PX window NX`, then
`INCR`, then `PTTL` with a defensive `PEXPIRE` repair when the key carries no
TTL, then the decision `current <= limit`.  Returns the decision and the new
content of the key. -/

def fixedWindowScriptEval (limit windowMs : Int) (now : Nat) (st : Option CounterEntry) :
    LimitDecision × CounterEntry :=
  let st0 : CounterEntry :=
    match liveCounter now st with
    | none => { value := 0, expireAtMs := some (now + windowMs.toNat) }
    | some e => e
  let current : Nat := st0.value + 1
  let st1 : CounterEntry := { st0 with value := current }
  let ttlAndSt : Int × CounterEntry :=
    match st1.expireAtMs with
    | some t => ((t : Int) - (now : Int), st1)
    | none => (windowMs, { st1 with expireAtMs := some (now + windowMs.toNat) })
  ({ Allowed := decide ((current : Int) ≤ limit),
     Count := (current : Int),
     Limit := limit,
     ResetIn := ttlAndSt.1 },
   ttlAndSt.2)

/-- `evalFixedWindow` of cache.go: rejects `window <= 0` and `limit <= 0`,
then runs the fixed-window script on the key. -/

def evalFixedWindow (limit windowMs : Int) (now : Nat) (st : Option CounterEntry) :
    Except VerificationError (LimitDecision × CounterEntry) :=
  if windowMs ≤ 0 then .error .invalidWindowDuration
  else if limit ≤ 0 then .error .invalidLimit
  else .ok (fixedWindowScriptEval limit windowMs now st)

/-- Iterate `evalFixedWindow` on one key at the given call times, collecting
the per-call results and the final content of the key. -/

def runFixedWindow (limit windowMs : Int) :
    List Nat → Option CounterEntry →
    List (Except VerificationError LimitDecision) × Option CounterEntry
  | [], st => ([], st)
  | t :: ts, st =>
    match evalFixedWindow limit windowMs t st with
    | .error e =>
      let r := runFixedWindow limit windowMs ts st
      (.error e :: r.1, r.2)
    | .ok (d, st') =>
      let r := runFixedWindow limit windowMs ts (some st')
      (.ok d :: r.1, r.2)

/-- A Go `any` value as it occurs in the `Args` list of a credential. -/

inductive GoAny where
  | str (s : String)
  | int (n : Int)
  deriving DecidableEq, Repr

/-- `Code` of verification.go: the stored credential.  `Format` models the
function-typed field; gob ignores it. -/

structure Code where
  UserID : Int
  «Type» : String
  Sequence : String
  CodeLength : Int
  Code : String
  Content : String
  Args : List GoAny
  Format : Option String
  deriving DecidableEq, Repr

/-- `MobileCode` of verification.go: a `Code` plus mobile and country code.
The Go struct embeds `Code`; the Lean structure extends it. -/

structure MobileCode extends Code where
  Mobile : String
  CountryCode : String
  deriving DecidableEq, Repr

/-- The fields of a `MobileCode` that gob actually serializes: all exported
non-function fields.  `Format` is absent by gob semantics. -/

structure SerializedMobileCode where
  UserID : Int
  «Type» : String
  Sequence : String
  CodeLength : Int
  Code : String
  Content : String
  Args : List GoAny
  Mobile : String
  CountryCode : String
  deriving DecidableEq, Repr

/-- Model of gob encoding of a `MobileCode`. -/

def gobEncodeMobileCode (mc : MobileCode) : SerializedMobileCode :=
  { UserID := mc.UserID, «Type» := mc.«Type», Sequence := mc.Sequence,
    CodeLength := mc.CodeLength, Code := mc.Code, Content := mc.Content,
    Args := mc.Args, Mobile := mc.Mobile, CountryCode := mc.CountryCode }

/-- Model of gob decoding: all serialized fields are restored and the
function-typed `Format` field comes back as `none`. -/

def gobDecodeMobileCode (sc : SerializedMobileCode) : MobileCode :=
  { UserID := sc.UserID, «Type» := sc.«Type», Sequence := sc.Sequence,
    CodeLength := sc.CodeLength, Code := sc.Code, Content := sc.Content,
    Args := sc.Args, Format := none,
    Mobile := sc.Mobile, CountryCode := sc.CountryCode }

/-- `MobileCodeKey` of cache.go. -/

def mobileCodeKey (pfx typ sequence mobile countryCode : String) : String :=
  pfx ++ ":VERIFICATION_CODE:MOBILE:" ++ goToUpper typ ++ ":" ++ sequence ++ ":" ++
    mobile ++ ":" ++ countryCode

/-- `buildKey` of cache.go: colon-joined key parts. -/

def buildKey (pfx category medium : String) (parts : List String) : String :=
  String.intercalate ":" ([pfx, category, medium] ++ parts)

/-- `mobileIncorrectKey` of cache.go: verify-failure counter key, scoped to
the sequence. -/

def mobileIncorrectKey (pfx typ sequence mobile countryCode : String) : String :=
  buildKey pfx "VERIFICATION_FAILURE" "MOBILE" [goToUpper typ, sequence, mobile, countryCode]

/-- `mobileLimitKey` of cache.go: send-limit counter key; deliberately does
not include the sequence. -/

def mobileLimitKey (pfx typ mobile countryCode : String) : String :=
  buildKey pfx "VERIFICATION_SEND_LIMIT" "MOBILE" [goToUpper typ, mobile, countryCode]

/-- A stored credential key: the gob payload plus its optional absolute
expiry in milliseconds. -/

structure CodeEntry where
  value : SerializedMobileCode
  expireAtMs : Option Nat
  deriving DecidableEq, Repr

/-- Redis lazy expiry for credential keys. -/

def liveCode (now : Nat) : Option CodeEntry → Option CodeEntry
  | none => none
  | some e =>
    match e.expireAtMs with
    | none => some e
    | some t => if now < t then some e else none

/-- The slice of the Redis store the OTP flows touch: credential keys (held
by `CodeCacheImpl`) and counter keys (held by `CodeLimiterCacheImpl`). -/

structure OTPStore where
  codes : String → Option CodeEntry
  counters : String → Option CounterEntry

/-- `SetMobileCode` of cache.go: gob-encode and `SET` with TTL (a
non-positive TTL stores the key without expiry, as in Redis `SET` without
expiration). -/

def SetMobileCode (pfx : String) (now : Nat) (mc : MobileCode) (expireMs : Int)
    (st : OTPStore) : OTPStore :=
  { st with
    codes := updateFn st.codes
      (mobileCodeKey pfx mc.«Type» mc.Sequence mc.Mobile mc.CountryCode)
      (some { value := gobEncodeMobileCode mc,
              expireAtMs := if 0 < expireMs then some (now + expireMs.toNat) else none }) }

/-- `PeekMobileCode` of cache.go: plain `GET` plus gob decode;
`redis.Nil` maps to `ErrCodeNotFound`. -/

def PeekMobileCode (pfx : String) (now : Nat) (typ sequence mobile countryCode : String)
    (st : OTPStore) : Except VerificationError MobileCode :=
  match liveCode now (st.codes (mobileCodeKey pfx typ sequence mobile countryCode)) with
  | none => .error .codeNotFound
  | some e => .ok (gobDecodeMobileCode e.value)

/-- `DeleteMobileCode` of cache.go: `DEL`; only transport can fail, so the
embedding always returns `.ok`. -/

def DeleteMobileCode (pfx : String) (typ sequence mobile countryCode : String)
    (st : OTPStore) : Except VerificationError OTPStore :=
  .ok { st with
        codes := updateFn st.codes (mobileCodeKey pfx typ sequence mobile countryCode) none }

/-- `GetMobileCodeIncorrectCount` of cache.go: `GET` of the failure counter,
with `redis.Nil` mapped to 0. -/

def GetMobileCodeIncorrectCount (pfx : String) (now : Nat)
    (typ sequence mobile countryCode : String) (st : OTPStore) : Int :=
  match liveCounter now (st.counters (mobileIncorrectKey pfx typ sequence mobile countryCode)) with
  | none => 0
  | some e => (e.value : Int)

/-- `AllowSendMobile` of cache.go: fixed-window evaluation on the send-limit
key. -/

def AllowSendMobile (pfx : String) (now : Nat) (typ mobile countryCode : String)
    (limit windowMs : Int) (st : OTPStore) :
    Except VerificationError (LimitDecision × OTPStore) :=
  match evalFixedWindow limit windowMs now
      (st.counters (mobileLimitKey pfx typ mobile countryCode)) with
  | .error e => .error e
  | .ok (d, ce) =>
    .ok (d, { st with
              counters := updateFn st.counters (mobileLimitKey pfx typ mobile countryCode)
                (some ce) })

/-- `IncrementMobileCodeIncorrect` of cache.go: fixed-window evaluation on
the verify-failure key. -/

def IncrementMobileCodeIncorrect (pfx : String) (now : Nat)
    (typ sequence mobile countryCode : String) (maxAttempts windowMs : Int) (st : OTPStore) :
    Except VerificationError (LimitDecision × OTPStore) :=
  match evalFixedWindow maxAttempts windowMs now
      (st.counters (mobileIncorrectKey pfx typ sequence mobile countryCode)) with
  | .error e => .error e
  | .ok (d, ce) =>
    .ok (d, { st with
              counters := updateFn st.counters
                (mobileIncorrectKey pfx typ sequence mobile countryCode) (some ce) })

/-- `DeleteMobileCodeIncorrect` of cache.go: `DEL` of the failure counter;
only transport can fail, so the embedding always returns `.ok`. -/

def DeleteMobileCodeIncorrect (pfx : String) (typ sequence mobile countryCode : String)
    (st : OTPStore) : Except VerificationError OTPStore :=
  .ok { st with
        counters := updateFn st.counters
          (mobileIncorrectKey pfx typ sequence mobile countryCode) none }

/-- The policy fields of `OTPServiceImpl` in otp.go (durations in
milliseconds). -/

structure OTPPolicy where
  ttlMs : Int
  maxSendAttempts : Int
  sendWindowMs : Int
  maxVerifyIncorrect : Int
  verifyWindowMs : Int
  deriving DecidableEq, Repr

/-- Collaborator calls made by the OTP flows, recorded as a trace. -/

inductive OTPEvent where
  | allowSendChecked
  | generatorCalled
  | codeStored
  | smsSent
  | codeDeleted
  | incorrectCountRead
  | incorrectIncremented
  | incorrectCleared
  | codePeeked
  deriving DecidableEq, Repr

/-- Oracle output of the code factory: the sequence id, the code string and
its declared length. -/

structure CodeFactoryOutput where
  sequence : String
  codeValue : String
  codeLength : Int
  deriving DecidableEq, Repr

/-- The credential built by `defaultCodeGenerator.NewMobileCode` in
generator.go for a given factory output. -/

def generatedMobileCode (typ : String) (userID : Int) (mobile countryCode : String)
    (fac : CodeFactoryOutput) : MobileCode :=
  { UserID := userID, «Type» := goToUpper typ, Sequence := fac.sequence,
    CodeLength := fac.codeLength, Code := fac.codeValue,
    Content := "Your verification code is: %s.",
    Args := [GoAny.str fac.codeValue], Format := some "fmt.Sprintf",
    Mobile := mobile, CountryCode := countryCode }

/-- `defaultCodeGenerator.NewMobileCode` of generator.go: rejects an empty
type tag, otherwise upper-cases the type and fills in the template. -/

def NewMobileCode (typ : String) (userID : Int) (mobile countryCode : String)
    (fac : CodeFactoryOutput) : Except VerificationError MobileCode :=
  if typ = "" then .error .codeTypeIsEmpty
  else .ok (generatedMobileCode typ userID mobile countryCode fac)

/-- `SendMobileOTP` of otp.go: rate-limit check first, then generator, then
store, then sender; on sender failure the stored code is deleted best-effort
and the error propagates.  Also returns the trace of collaborator calls. -/

def SendMobileOTP (pfx : String) (pol : OTPPolicy) (fac : CodeFactoryOutput)
    (senderOk : Bool) (now : Nat) (typ : String) (userID : Int)
    (mobile countryCode : String) (st : OTPStore) :
    Except VerificationError String × OTPStore × List OTPEvent :=
  match AllowSendMobile pfx now typ mobile countryCode pol.maxSendAttempts
      pol.sendWindowMs st with
  | .error e => (.error e, st, [.allowSendChecked])
  | .ok (d, st1) =>
    if !d.Allowed then (.error .mobileSendLimitExceeded, st1, [.allowSendChecked])
    else
      match NewMobileCode typ userID mobile countryCode fac with
      | .error e => (.error e, st1, [.allowSendChecked, .generatorCalled])
      | .ok mc =>
        let st2 := SetMobileCode pfx now mc pol.ttlMs st1
        if senderOk then
          (.ok mc.Sequence, st2, [.allowSendChecked, .generatorCalled, .codeStored, .smsSent])
        else
          (.error .smsSendFailed,
           (DeleteMobileCode pfx typ mc.Sequence mobile countryCode st2).toOption.getD st2,
           [.allowSendChecked, .generatorCalled, .codeStored, .smsSent, .codeDeleted])

/-- `VerifyMobileOTP` of otp.go: read the failure count; at or above the
limit delete the code and the counter and fail terminally; otherwise peek,
compare, and either record a failure or consume the code and clear the
counter. -/

def VerifyMobileOTP (pfx : String) (pol : OTPPolicy) (now : Nat)
    (typ sequence mobile countryCode input : String) (st : OTPStore) :
    Except VerificationError Unit × OTPStore × List OTPEvent :=
  let cnt := GetMobileCodeIncorrectCount pfx now typ sequence mobile countryCode st
  if pol.maxVerifyIncorrect ≤ cnt then
    let st1 := (DeleteMobileCode pfx typ sequence mobile countryCode st).toOption.getD st
    let st2 := (DeleteMobileCodeIncorrect pfx typ sequence mobile countryCode st1).toOption.getD st1
    (.error .mobileVerifyLimitExceeded, st2,
     [.incorrectCountRead, .codeDeleted, .incorrectCleared])
  else
    match PeekMobileCode pfx now typ sequence mobile countryCode st with
    | .error e => (.error e, st, [.incorrectCountRead, .codePeeked])
    | .ok stored =>
      if stored.Code ≠ input then
        let st1 :=
          match IncrementMobileCodeIncorrect pfx now typ sequence mobile countryCode
              pol.maxVerifyIncorrect pol.verifyWindowMs st with
          | .error _ => st
          | .ok (_, st') => st'
        (.error .codeIncorrect, st1,
         [.incorrectCountRead, .codePeeked, .incorrectIncremented])
      else
        match DeleteMobileCode pfx typ sequence mobile countryCode st with
        | .error e => (.error e, st, [.incorrectCountRead, .codePeeked, .codeDeleted])
        | .ok st1 =>
          let st2 :=
            (DeleteMobileCodeIncorrect pfx typ sequence mobile countryCode st1).toOption.getD st1
          (.ok (), st2,
           [.incorrectCountRead, .codePeeked, .codeDeleted, .incorrectCleared])

/-- `ErrSessionNotFound` of authorization/session.go. -/

inductive SessionError where
  | sessionNotFound
  deriving DecidableEq, Repr

/-- A primary session key: the user id plus its optional absolute expiry in
seconds. -/

structure SessionEntry where
  userID : Int
  expireAtSec : Option Nat
  deriving DecidableEq, Repr

/-- A per-user session-index hash: its fields (session id to recorded expiry
seconds) and the expiry of the hash key itself. -/

structure SessionMapEntry where
  fields : List (String × Nat)
  expireAtSec : Option Nat
  deriving DecidableEq, Repr

/-- The slice of the Redis store the session code touches, keyed by session
id and by user id (the two key namespaces are disjoint in the source). -/

structure SessionStore where
  primary : String → Option SessionEntry
  maps : Int → Option SessionMapEntry

/-- Redis lazy expiry for primary session keys. -/

def livePrimary (now : Nat) : Option SessionEntry → Option SessionEntry
  | none => none
  | some e =>
    match e.expireAtSec with
    | none => some e
    | some t => if now < t then some e else none

/-- Redis lazy expiry for session-index hash keys. -/

def liveMap (now : Nat) : Option SessionMapEntry → Option SessionMapEntry
  | none => none
  | some m =>
    match m.expireAtSec with
    | none => some m
    | some t => if now < t then some m else none

/-- Redis `HSET` on an association-list hash: overwrite the field if present,
append it otherwise. -/

def hsetField (l : List (String × Nat)) (f : String) (v : Nat) : List (String × Nat) :=
  if l.any (fun p => p.1 == f) then l.map (fun p => if p.1 = f then (f, v) else p)
  else l ++ [(f, v)]

/-- Redis `HDEL` on an association-list hash. -/

def hdelField (l : List (String × Nat)) (f : String) : List (String × Nat) :=
  l.filter (fun p => !(p.1 == f))

/-- Redis `HGET` on an association-list hash. -/

def hgetField (l : List (String × Nat)) (f : String) : Option Nat :=
  (l.find? (fun p => p.1 == f)).map (fun p => p.2)

/-- The loop of `userSetSessionIDScript`: iterate over the `HGETALL` snapshot,
`HDEL` fields whose recorded expiry is before the current timestamp, and
accumulate the largest surviving expiry starting from the new expiry. -/

def reapFold (now : Nat) (snapshot : List (String × Nat))
    (fields0 : List (String × Nat)) (acc0 : Nat) : List (String × Nat) × Nat :=
  snapshot.foldl
    (fun ac p =>
      if p.2 < now then (hdelField ac.1 p.1, ac.2)
      else if ac.2 < p.2 then (ac.1, p.2) else ac)
    (fields0, acc0)

/-- The fields of a session-index hash as the script sees them: empty when
the key is absent or expired. -/

def mapFieldsView (now : Nat) (m : Option SessionMapEntry) : List (String × Nat) :=
  match liveMap now m with
  | none => []
  | some e => e.fields

/-- `userSetSessionIDScript` of session.go: `SET` and `EXPIREAT` the primary
key, `HSET` the index entry, reap stale index entries, and `EXPIREAT` the
index key at the maximum surviving expiry. -/

def userSetSessionIDScript (now : Nat) (sid : String) (uid : Int) (expireTs : Nat)
    (st : SessionStore) : SessionStore :=
  let fields1 := hsetField (mapFieldsView now (st.maps uid)) sid expireTs
  let reaped := reapFold now fields1 fields1 expireTs
  { primary := updateFn st.primary sid
      (some { userID := uid, expireAtSec := some expireTs }),
    maps := updateFn st.maps uid
      (some { fields := reaped.1, expireAtSec := some reaped.2 }) }

/-- `SetUserSessionID` of session.go: run the script with the absolute expiry
`now + expire`. -/

def SetUserSessionID (now : Nat) (sid : String) (uid : Int) (expireDurSec : Nat)
    (st : SessionStore) : SessionStore :=
  userSetSessionIDScript now sid uid (now + expireDurSec) st

/-- `GetUserIDBySessionID` of session.go: `GET` the primary key
(`redis.Nil` maps to `ErrSessionNotFound`), then pipeline `EXPIRE` on the
primary key, `EXPIRE` on the index key and `HSET` of the index entry at
`now + expire`.  `EXPIRE` on an absent or expired index key is a no-op, and
the following `HSET` then recreates the hash without a TTL. -/

def GetUserIDBySessionID (now : Nat) (sid : String) (expireDurSec : Nat)
    (st : SessionStore) : Except SessionError Int × SessionStore :=
  match livePrimary now (st.primary sid) with
  | none => (.error .sessionNotFound, st)
  | some e =>
    (.ok e.userID,
     { primary := updateFn st.primary sid
         (some { userID := e.userID, expireAtSec := some (now + expireDurSec) }),
       maps :=
         match liveMap now (st.maps e.userID) with
         | none =>
           updateFn st.maps e.userID
             (some { fields := hsetField [] sid (now + expireDurSec),
                     expireAtSec := none })
         | some m =>
           updateFn st.maps e.userID
             (some { fields := hsetField m.fields sid (now + expireDurSec),
                     expireAtSec := some (now + expireDurSec) }) })

/-- Empty OTP store used by concrete witnesses. -/
def otpStoreEmpty : OTPStore :=
  { codes := fun _ => none, counters := fun _ => none }

/-- A concrete serialized credential used by concrete witnesses. -/
def serializedSample : SerializedMobileCode :=
  { UserID := 1, «Type» := "LOGIN", Sequence := "s1", CodeLength := 4, Code := "1234",
    Content := "Your verification code is: %s.", Args := [GoAny.str "1234"],
    Mobile := "13800138000", CountryCode := "86" }

/-- A concrete credential used by concrete witnesses. -/
def mcSample : MobileCode :=
  { UserID := 1, «Type» := "LOGIN", Sequence := "s1", CodeLength := 4, Code := "1234",
    Content := "Your verification code is: %s.", Args := [GoAny.str "1234"],
    Format := some "fmt.Sprintf", Mobile := "13800138000", CountryCode := "86" }

/-- A concrete OTP policy used by concrete witnesses. -/
def polSample : OTPPolicy :=
  { ttlMs := 1000, maxSendAttempts := 2, sendWindowMs := 1000,
    maxVerifyIncorrect := 2, verifyWindowMs := 1000 }

/-- Concrete factory outputs used by concrete witnesses. -/
def facSample : CodeFactoryOutput :=
  { sequence := "s1", codeValue := "1234", codeLength := 4 }

def facSample2 : CodeFactoryOutput :=
  { sequence := "s2", codeValue := "5678", codeLength := 4 }

def facSample3 : CodeFactoryOutput :=
  { sequence := "s3", codeValue := "9012", codeLength := 4 }

/-- An OTP store holding one live credential and no counters. -/
def otpStoreWithCode : OTPStore :=
  { codes := fun k =>
      if k = mobileCodeKey "TEST" "LOGIN" "s1" "13800138000" "86" then
        some { value := serializedSample, expireAtMs := some 1000 }
      else none,
    counters := fun _ => none }

/-- An OTP store whose send-limit counter for the empty type tag is 1. -/
def otpStoreWithSendCount : OTPStore :=
  { codes := fun _ => none,
    counters := fun k =>
      if k = mobileLimitKey "TEST" "" "13800138000" "86" then
        some { value := 1, expireAtMs := some 10 }
      else none }

/-- Empty session store used by the counterexample and witnesses. -/
def sessionStoreEmpty : SessionStore :=
  { primary := fun _ => none, maps := fun _ => none }

/-- The state after: issue session A for user 1 with TTL 100 s at time 0,
issue session B for user 1 with TTL 10 s at time 0, then resolve session B
with sliding TTL 10 s at time 1. -/
def sessionScenarioStore : SessionStore :=
  (GetUserIDBySessionID 1 "B" 10
    (SetUserSessionID 0 "B" 1 10
      (SetUserSessionID 0 "A" 1 100 sessionStoreEmpty))).2

theorem char_toUpper_toUpper (c : Char) : c.toUpper.toUpper = c.toUpper := by
  unfold Char.toUpper
  by_cases h : 97 ≤ c.toNat ∧ c.toNat ≤ 122
  · rw [if_pos h]
    have hval : (c.toNat - 32).isValidChar := Or.inl (by omega)
    have htn : (Char.ofNat (c.toNat - 32)).toNat = c.toNat - 32 := by
      unfold Char.ofNat
      rw [dif_pos hval]
      simp only [Char.ofNatAux, Char.toNat, UInt32.toNat, BitVec.toNat_ofNatLt]
    have hc : ¬ (97 ≤ (Char.ofNat (c.toNat - 32)).toNat ∧
        (Char.ofNat (c.toNat - 32)).toNat ≤ 122) := by
      rw [htn]
      omega
    rw [if_neg hc]
  · rw [if_neg h, if_neg h]

theorem goToUpper_idem (s : String) : goToUpper (goToUpper s) = goToUpper s := by
  simp only [goToUpper, List.map_map]
  congr 1
  apply List.map_congr_left
  intro c _
  exact char_toUpper_toUpper c

theorem updateFn_idem {α β : Type} [DecidableEq α] (f : α → Option β) (k : α)
    (v : Option β) : updateFn (updateFn f k v) k v = updateFn f k v := by
  funext x
  unfold updateFn
  by_cases h : x = k <;> simp [h]

theorem evalFixedWindow_fresh (limit windowMs : Int) (hw : 0 < windowMs) (hl : 0 < limit)
    (now : Nat) (st : Option CounterEntry) (hst : liveCounter now st = none) :
    evalFixedWindow limit windowMs now st =
      .ok ({ Allowed := decide ((1 : Int) ≤ limit), Count := 1, Limit := limit,
             ResetIn := windowMs },
           { value := 1, expireAtMs := some (now + windowMs.toNat) }) := by
  have h1 : ((now + windowMs.toNat : Nat) : Int) - (now : Int) = windowMs := by omega
  simp only [evalFixedWindow, fixedWindowScriptEval, hst]
  rw [if_neg (by omega), if_neg (by omega)]
  simp [h1]
  omega

theorem evalFixedWindow_live (limit windowMs : Int) (hw : 0 < windowMs) (hl : 0 < limit)
    (now k E : Nat) (hE : now < E) :
    evalFixedWindow limit windowMs now (some { value := k, expireAtMs := some E }) =
      .ok ({ Allowed := decide (((k : Int) + 1) ≤ limit), Count := (k : Int) + 1,
             Limit := limit, ResetIn := (E : Int) - (now : Int) },
           { value := k + 1, expireAtMs := some E }) := by
  simp only [evalFixedWindow, fixedWindowScriptEval, liveCounter, if_pos hE]
  rw [if_neg (by omega), if_neg (by omega)]
  simp

theorem evalFixedWindow_nottl (limit windowMs : Int) (hw : 0 < windowMs) (hl : 0 < limit)
    (now k : Nat) :
    evalFixedWindow limit windowMs now (some { value := k, expireAtMs := none }) =
      .ok ({ Allowed := decide (((k : Int) + 1) ≤ limit), Count := (k : Int) + 1,
             Limit := limit, ResetIn := windowMs },
           { value := k + 1, expireAtMs := some (now + windowMs.toNat) }) := by
  unfold evalFixedWindow fixedWindowScriptEval liveCounter
  rw [if_neg (by omega), if_neg (by omega)]
  simp

theorem runFixedWindow_steady (limit windowMs : Int) (hw : 0 < windowMs) (hl : 0 < limit)
    (E : Nat) (ts : List Nat) :
    ∀ (k : Nat), (∀ t ∈ ts, t < E) →
      (runFixedWindow limit windowMs ts (some { value := k, expireAtMs := some E })).2 =
        some { value := k + ts.length, expireAtMs := some E } ∧
      ∀ (i : Nat) (t : Nat), ts[i]? = some t →
        (runFixedWindow limit windowMs ts (some { value := k, expireAtMs := some E })).1[i]? =
          some (.ok { Allowed := decide (((k + i + 1 : Nat) : Int) ≤ limit),
                      Count := ((k + i + 1 : Nat) : Int), Limit := limit,
                      ResetIn := (E : Int) - (t : Int) }) := by
  induction ts with
  | nil =>
    intro k h
    refine ⟨by simp [runFixedWindow], ?_⟩
    intro i t ht
    simp at ht
  | cons t0 ts ih =>
    intro k h
    have ht0 : t0 < E := h t0 (by simp)
    have hrec := ih (k + 1) (fun t ht => h t (by simp [ht]))
    have hstep :
        runFixedWindow limit windowMs (t0 :: ts)
          (some { value := k, expireAtMs := some E }) =
        (.ok { Allowed := decide (((k : Int) + 1) ≤ limit), Count := (k : Int) + 1,
               Limit := limit, ResetIn := (E : Int) - (t0 : Int) } ::
           (runFixedWindow limit windowMs ts
             (some { value := k + 1, expireAtMs := some E })).1,
         (runFixedWindow limit windowMs ts
             (some { value := k + 1, expireAtMs := some E })).2) := by
      rw [runFixedWindow, evalFixedWindow_live limit windowMs hw hl t0 k E ht0]
    refine ⟨?_, ?_⟩
    · rw [hstep]
      simpa [Nat.add_assoc, Nat.add_comm 1 ts.length] using hrec.1
    · intro i t ht
      rw [hstep]
      cases i with
      | zero =>
        simp at ht
        subst ht
        simp
      | succ i =>
        simp only [List.getElem?_cons_succ] at ht ⊢
        have hi := hrec.2 i t ht
        have harith : k + 1 + i + 1 = k + (i + 1) + 1 := by omega
        rw [harith] at hi
        exact hi

theorem getMobileCodeIncorrectCount_nonneg (pfx : String) (now : Nat)
    (typ sequence mobile countryCode : String) (st : OTPStore) :
    0 ≤ GetMobileCodeIncorrectCount pfx now typ sequence mobile countryCode st := by
  unfold GetMobileCodeIncorrectCount
  cases liveCounter now
      (st.counters (mobileIncorrectKey pfx typ sequence mobile countryCode)) with
  | none => simp
  | some e => simp

theorem peekMobileCode_congr (pfx : String) (now : Nat)
    (typ sequence mobile countryCode : String) (st st' : OTPStore)
    (h : st'.codes = st.codes) :
    PeekMobileCode pfx now typ sequence mobile countryCode st' =
      PeekMobileCode pfx now typ sequence mobile countryCode st := by
  unfold PeekMobileCode
  rw [h]

theorem incrementMobileCodeIncorrect_spec (pfx : String) (now : Nat)
    (typ sequence mobile countryCode : String) (maxAttempts windowMs : Int)
    (hmax : 0 < maxAttempts) (hw : 0 < windowMs) (st : OTPStore) :
    ∃ d st', IncrementMobileCodeIncorrect pfx now typ sequence mobile countryCode
        maxAttempts windowMs st = .ok (d, st') ∧
      st'.codes = st.codes ∧
      GetMobileCodeIncorrectCount pfx now typ sequence mobile countryCode st' =
        GetMobileCodeIncorrectCount pfx now typ sequence mobile countryCode st + 1 := by
  have hwn : now < now + windowMs.toNat := by omega
  unfold IncrementMobileCodeIncorrect GetMobileCodeIncorrectCount
  cases hst : st.counters (mobileIncorrectKey pfx typ sequence mobile countryCode) with
  | none =>
    rw [evalFixedWindow_fresh maxAttempts windowMs hw hmax now none rfl]
    refine ⟨_, _, rfl, rfl, ?_⟩
    simp [updateFn, liveCounter, hwn]
  | some e =>
    cases e with
    | mk v ex =>
      cases ex with
      | none =>
        rw [evalFixedWindow_nottl maxAttempts windowMs hw hmax now v]
        refine ⟨_, _, rfl, rfl, ?_⟩
        simp [updateFn, liveCounter, hwn]
      | some E =>
        by_cases hnow : now < E
        · rw [evalFixedWindow_live maxAttempts windowMs hw hmax now v E hnow]
          refine ⟨_, _, rfl, rfl, ?_⟩
          simp [updateFn, liveCounter, hnow]
        · rw [evalFixedWindow_fresh maxAttempts windowMs hw hmax now
            (some { value := v, expireAtMs := some E }) (by simp [liveCounter, hnow])]
          refine ⟨_, _, rfl, rfl, ?_⟩
          simp [updateFn, liveCounter, hnow, hwn]

theorem sendMobileOTP_fresh_ok (pfx : String) (pol : OTPPolicy) (fac : CodeFactoryOutput)
    (now : Nat) (typ : String) (userID : Int) (mobile countryCode : String) (st : OTPStore)
    (hl : 0 < pol.maxSendAttempts) (hw : 0 < pol.sendWindowMs) (htyp : typ ≠ "")
    (hK : liveCounter now (st.counters (mobileLimitKey pfx typ mobile countryCode)) = none) :
    SendMobileOTP pfx pol fac true now typ userID mobile countryCode st =
      (.ok fac.sequence,
       SetMobileCode pfx now (generatedMobileCode typ userID mobile countryCode fac) pol.ttlMs
         { st with
           counters := updateFn st.counters (mobileLimitKey pfx typ mobile countryCode)
             (some { value := 1,
                     expireAtMs := some (now + pol.sendWindowMs.toNat) }) },
       [.allowSendChecked, .generatorCalled, .codeStored, .smsSent]) := by
  unfold SendMobileOTP AllowSendMobile
  rw [evalFixedWindow_fresh pol.maxSendAttempts pol.sendWindowMs hw hl now _ hK]
  unfold NewMobileCode
  rw [if_neg htyp]
  simp [hl]
  rw [if_neg (by omega : ¬ pol.maxSendAttempts < 1)]
  simp [generatedMobileCode]

theorem sendMobileOTP_live_ok (pfx : String) (pol : OTPPolicy) (fac : CodeFactoryOutput)
    (now : Nat) (typ : String) (userID : Int) (mobile countryCode : String) (st : OTPStore)
    (c E : Nat) (hw : 0 < pol.sendWindowMs) (htyp : typ ≠ "")
    (hK : st.counters (mobileLimitKey pfx typ mobile countryCode) =
      some { value := c, expireAtMs := some E })
    (hE : now < E) (hok : ((c : Int) + 1) ≤ pol.maxSendAttempts) :
    SendMobileOTP pfx pol fac true now typ userID mobile countryCode st =
      (.ok fac.sequence,
       SetMobileCode pfx now (generatedMobileCode typ userID mobile countryCode fac) pol.ttlMs
         { st with
           counters := updateFn st.counters (mobileLimitKey pfx typ mobile countryCode)
             (some { value := c + 1, expireAtMs := some E }) },
       [.allowSendChecked, .generatorCalled, .codeStored, .smsSent]) := by
  have hl : 0 < pol.maxSendAttempts := by omega
  unfold SendMobileOTP AllowSendMobile
  rw [hK, evalFixedWindow_live pol.maxSendAttempts pol.sendWindowMs hw hl now c E hE]
  unfold NewMobileCode
  rw [if_neg htyp]
  simp [hok]
  simp [generatedMobileCode]

theorem sendMobileOTP_live_denied (pfx : String) (pol : OTPPolicy) (fac : CodeFactoryOutput)
    (senderOk : Bool) (now : Nat) (typ : String) (userID : Int)
    (mobile countryCode : String) (st : OTPStore) (c E : Nat)
    (hl : 0 < pol.maxSendAttempts) (hw : 0 < pol.sendWindowMs)
    (hK : st.counters (mobileLimitKey pfx typ mobile countryCode) =
      some { value := c, expireAtMs := some E })
    (hE : now < E) (hdeny : pol.maxSendAttempts < ((c : Int) + 1)) :
    SendMobileOTP pfx pol fac senderOk now typ userID mobile countryCode st =
      (.error .mobileSendLimitExceeded,
       { st with
         counters := updateFn st.counters (mobileLimitKey pfx typ mobile countryCode)
           (some { value := c + 1, expireAtMs := some E }) },
       [.allowSendChecked]) := by
  unfold SendMobileOTP AllowSendMobile
  rw [hK, evalFixedWindow_live pol.maxSendAttempts pol.sendWindowMs hw hl now c E hE]
  simp [Int.not_le.mpr hdeny]

theorem verifyMobileOTP_wrong_fresh (pfx : String) (pol : OTPPolicy) (now : Nat)
    (typ sequence mobile countryCode input : String) (st : OTPStore) (ce : CodeEntry)
    (hmax : 0 < pol.maxVerifyIncorrect) (hw : 0 < pol.verifyWindowMs)
    (hfail : st.counters (mobileIncorrectKey pfx typ sequence mobile countryCode) = none)
    (hpeek : liveCode now (st.codes (mobileCodeKey pfx typ sequence mobile countryCode)) =
      some ce)
    (hneq : ce.value.Code ≠ input) :
    VerifyMobileOTP pfx pol now typ sequence mobile countryCode input st =
      (.error .codeIncorrect,
       { st with
         counters := updateFn st.counters
           (mobileIncorrectKey pfx typ sequence mobile countryCode)
           (some { value := 1, expireAtMs := some (now + pol.verifyWindowMs.toNat) }) },
       [.incorrectCountRead, .codePeeked, .incorrectIncremented]) := by
  unfold VerifyMobileOTP GetMobileCodeIncorrectCount PeekMobileCode
    IncrementMobileCodeIncorrect
  rw [hfail, hpeek]
  rw [evalFixedWindow_fresh pol.maxVerifyIncorrect pol.verifyWindowMs hw hmax now none rfl]
  simp only [liveCounter]
  rw [if_neg (by omega : ¬ pol.maxVerifyIncorrect ≤ (0 : Int))]
  rw [if_pos (by exact hneq)]

theorem verifyMobileOTP_wrong_live (pfx : String) (pol : OTPPolicy) (now : Nat)
    (typ sequence mobile countryCode input : String) (st : OTPStore) (ce : CodeEntry)
    (k F : Nat) (hw : 0 < pol.verifyWindowMs)
    (hfail : st.counters (mobileIncorrectKey pfx typ sequence mobile countryCode) =
      some { value := k, expireAtMs := some F })
    (hF : now < F) (hcnt : (k : Int) < pol.maxVerifyIncorrect)
    (hpeek : liveCode now (st.codes (mobileCodeKey pfx typ sequence mobile countryCode)) =
      some ce)
    (hneq : ce.value.Code ≠ input) :
    VerifyMobileOTP pfx pol now typ sequence mobile countryCode input st =
      (.error .codeIncorrect,
       { st with
         counters := updateFn st.counters
           (mobileIncorrectKey pfx typ sequence mobile countryCode)
           (some { value := k + 1, expireAtMs := some F }) },
       [.incorrectCountRead, .codePeeked, .incorrectIncremented]) := by
  unfold VerifyMobileOTP GetMobileCodeIncorrectCount PeekMobileCode
    IncrementMobileCodeIncorrect
  rw [hfail, hpeek]
  rw [evalFixedWindow_live pol.maxVerifyIncorrect pol.verifyWindowMs hw (by omega)
    now k F hF]
  simp only [liveCounter, if_pos hF]
  rw [if_neg (by exact_mod_cast Int.not_le.mpr hcnt)]
  rw [if_pos (by exact hneq)]

theorem verifyMobileOTP_lockout (pfx : String) (pol : OTPPolicy) (now : Nat)
    (typ sequence mobile countryCode input : String) (st : OTPStore) (k F : Nat)
    (hfail : st.counters (mobileIncorrectKey pfx typ sequence mobile countryCode) =
      some { value := k, expireAtMs := some F })
    (hF : now < F) (hcnt : pol.maxVerifyIncorrect ≤ (k : Int)) :
    VerifyMobileOTP pfx pol now typ sequence mobile countryCode input st =
      (.error .mobileVerifyLimitExceeded,
       { st with
         codes := updateFn st.codes (mobileCodeKey pfx typ sequence mobile countryCode) none,
         counters := updateFn st.counters
           (mobileIncorrectKey pfx typ sequence mobile countryCode) none },
       [.incorrectCountRead, .codeDeleted, .incorrectCleared]) := by
  unfold VerifyMobileOTP GetMobileCodeIncorrectCount DeleteMobileCode
    DeleteMobileCodeIncorrect
  rw [hfail]
  simp only [liveCounter, if_pos hF]
  rw [if_pos (by exact_mod_cast hcnt)]
  rfl

theorem verifyMobileOTP_notfound (pfx : String) (pol : OTPPolicy) (now : Nat)
    (typ sequence mobile countryCode input : String) (st : OTPStore)
    (hmax : 0 < pol.maxVerifyIncorrect)
    (hfail : st.counters (mobileIncorrectKey pfx typ sequence mobile countryCode) = none)
    (hpeek : liveCode now (st.codes (mobileCodeKey pfx typ sequence mobile countryCode)) =
      none) :
    VerifyMobileOTP pfx pol now typ sequence mobile countryCode input st =
      (.error .codeNotFound, st, [.incorrectCountRead, .codePeeked]) := by
  unfold VerifyMobileOTP GetMobileCodeIncorrectCount PeekMobileCode
  rw [hfail, hpeek]
  simp only [liveCounter]
  rw [if_neg (by omega : ¬ pol.maxVerifyIncorrect ≤ (0 : Int))]

theorem verifyMobileOTP_correct (pfx : String) (pol : OTPPolicy) (now : Nat)
    (typ sequence mobile countryCode input : String) (st : OTPStore) (ce : CodeEntry)
    (hmax : 0 < pol.maxVerifyIncorrect)
    (hfail : st.counters (mobileIncorrectKey pfx typ sequence mobile countryCode) = none)
    (hpeek : liveCode now (st.codes (mobileCodeKey pfx typ sequence mobile countryCode)) =
      some ce)
    (heq : ce.value.Code = input) :
    VerifyMobileOTP pfx pol now typ sequence mobile countryCode input st =
      (.ok (),
       { st with
         codes := updateFn st.codes (mobileCodeKey pfx typ sequence mobile countryCode) none,
         counters := updateFn st.counters
           (mobileIncorrectKey pfx typ sequence mobile countryCode) none },
       [.incorrectCountRead, .codePeeked, .codeDeleted, .incorrectCleared]) := by
  unfold VerifyMobileOTP GetMobileCodeIncorrectCount PeekMobileCode DeleteMobileCode
    DeleteMobileCodeIncorrect
  rw [hfail, hpeek]
  simp only [liveCounter]
  rw [if_neg (by omega : ¬ pol.maxVerifyIncorrect ≤ (0 : Int))]
  rw [if_neg (by simp [gobDecodeMobileCode, heq])]
  rfl

theorem setMobileCode_codes_lookup (pfx : String) (now : Nat) (mc : MobileCode)
    (expireMs : Int) (st : OTPStore) :
    (SetMobileCode pfx now mc expireMs st).codes
        (mobileCodeKey pfx mc.«Type» mc.Sequence mc.Mobile mc.CountryCode) =
      some { value := gobEncodeMobileCode mc,
             expireAtMs := if 0 < expireMs then some (now + expireMs.toNat) else none } := by
  simp [SetMobileCode, updateFn]

theorem hsetField_exists_key (l : List (String × Nat)) (k : String) (v : Nat) :
    ∃ q ∈ hsetField l k v, q.1 = k := by
  unfold hsetField
  by_cases h : l.any (fun p => p.1 == k)
  · rw [if_pos h]
    obtain ⟨p, hp, hpk⟩ := List.any_eq_true.mp h
    refine ⟨(k, v), ?_, rfl⟩
    refine List.mem_map.mpr ⟨p, hp, ?_⟩
    rw [if_pos (by simpa using hpk)]
  · rw [if_neg h]
    exact ⟨(k, v), by simp, rfl⟩

theorem hsetField_key_all (l : List (String × Nat)) (k : String) (v : Nat) :
    ∀ q ∈ hsetField l k v, q.1 = k → q.2 = v := by
  intro q hq hqk
  unfold hsetField at hq
  by_cases h : l.any (fun p => p.1 == k)
  · rw [if_pos h] at hq
    obtain ⟨p, hp, hpq⟩ := List.mem_map.mp hq
    by_cases hpk : p.1 = k
    · rw [if_pos hpk] at hpq
      rw [← hpq]
    · rw [if_neg hpk] at hpq
      rw [← hpq] at hqk
      exact absurd hqk hpk
  · rw [if_neg h] at hq
    rcases List.mem_append.mp hq with hql | hqv
    · exact absurd (List.any_eq_true.mpr ⟨q, hql, by simp [hqk]⟩) h
    · simp at hqv
      rw [hqv]

theorem hsetField_keys_nodup (l : List (String × Nat)) (k : String) (v : Nat)
    (hnd : (l.map Prod.fst).Nodup) :
    ((hsetField l k v).map Prod.fst).Nodup := by
  unfold hsetField
  by_cases h : l.any (fun p => p.1 == k)
  · rw [if_pos h]
    have : (l.map (fun p => if p.1 = k then (k, v) else p)).map Prod.fst = l.map Prod.fst := by
      rw [List.map_map]
      apply List.map_congr_left
      intro p _
      by_cases hp : p.1 = k
      · simp [hp]
      · simp [hp]
    rw [this]
    exact hnd
  · rw [if_neg h]
    rw [List.map_append]
    simp only [List.map_cons, List.map_nil]
    rw [List.nodup_append]
    refine ⟨hnd, by simp, ?_⟩
    intro a ha
    simp only [List.mem_singleton]
    intro hak
    subst hak
    obtain ⟨p, hp, hpk⟩ := List.mem_map.mp ha
    exact absurd (List.any_eq_true.mpr ⟨p, hp, by simp [hpk]⟩) h

theorem nodup_keys_pair_eq :
    ∀ (l : List (String × Nat)), (l.map Prod.fst).Nodup →
      ∀ p q, p ∈ l → q ∈ l → p.1 = q.1 → p = q := by
  intro l
  induction l with
  | nil => intro _ p q hp; simp at hp
  | cons a rest ih =>
    intro hnd p q hp hq hk
    simp only [List.map_cons, List.nodup_cons] at hnd
    rcases List.mem_cons.mp hp with hpa | hpr <;> rcases List.mem_cons.mp hq with hqa | hqr
    · rw [hpa, hqa]
    · exfalso
      subst hpa
      exact hnd.1 (List.mem_map.mpr ⟨q, hqr, hk.symm⟩)
    · exfalso
      subst hqa
      exact hnd.1 (List.mem_map.mpr ⟨p, hpr, hk⟩)
    · exact ih hnd.2 p q hpr hqr hk

theorem reapFold_acc_mono (now : Nat) :
    ∀ (snapshot cur : List (String × Nat)) (acc : Nat),
      acc ≤ (reapFold now snapshot cur acc).2 := by
  intro snapshot
  induction snapshot with
  | nil => intro cur acc; simp [reapFold]
  | cons p rest ih =>
    intro cur acc
    unfold reapFold
    simp only [List.foldl_cons]
    by_cases hp : p.2 < now
    · rw [if_pos hp]
      exact ih (hdelField cur p.1) acc
    · rw [if_neg hp]
      by_cases ha : acc < p.2
      · rw [if_pos ha]
        exact le_trans (le_of_lt ha) (ih cur p.2)
      · rw [if_neg ha]
        exact ih cur acc

theorem reapFold_mem_spec (now : Nat) :
    ∀ (snapshot cur : List (String × Nat)) (acc : Nat),
      ∀ q ∈ (reapFold now snapshot cur acc).1,
        q ∈ cur ∧ (q ∈ snapshot → now ≤ q.2 ∧ q.2 ≤ (reapFold now snapshot cur acc).2) := by
  intro snapshot
  induction snapshot with
  | nil =>
    intro cur acc q hq
    refine ⟨by simpa [reapFold] using hq, ?_⟩
    intro h
    simp at h
  | cons p rest ih =>
    intro cur acc q hq
    unfold reapFold at hq ⊢
    simp only [List.foldl_cons] at hq ⊢
    by_cases hp : p.2 < now
    · rw [if_pos hp] at hq ⊢
      obtain ⟨hq1, hq2⟩ := ih (hdelField cur p.1) acc q hq
      unfold hdelField at hq1
      have hfilt := List.mem_filter.mp hq1
      refine ⟨hfilt.1, ?_⟩
      intro hmem
      rcases List.mem_cons.mp hmem with hqp | hqrest
      · exfalso
        have hbool := hfilt.2
        rw [hqp] at hbool
        simp at hbool
      · exact hq2 hqrest
    · rw [if_neg hp] at hq ⊢
      by_cases ha : acc < p.2
      · rw [if_pos ha] at hq ⊢
        obtain ⟨hq1, hq2⟩ := ih cur p.2 q hq
        refine ⟨hq1, ?_⟩
        intro hmem
        rcases List.mem_cons.mp hmem with hqp | hqrest
        · subst hqp
          exact ⟨le_of_not_lt hp, le_trans le_rfl (reapFold_acc_mono now rest cur q.2)⟩
        · exact hq2 hqrest
      · rw [if_neg ha] at hq ⊢
        obtain ⟨hq1, hq2⟩ := ih cur acc q hq
        refine ⟨hq1, ?_⟩
        intro hmem
        rcases List.mem_cons.mp hmem with hqp | hqrest
        · subst hqp
          refine ⟨le_of_not_lt hp, ?_⟩
          exact le_trans (le_of_not_lt ha) (reapFold_acc_mono now rest cur acc)
        · exact hq2 hqrest

theorem reapFold_keeps (now : Nat) :
    ∀ (snapshot cur : List (String × Nat)) (acc : Nat) (q : String × Nat),
      (∀ p ∈ snapshot, p.1 = q.1 → ¬ p.2 < now) →
      q ∈ cur → q ∈ (reapFold now snapshot cur acc).1 := by
  intro snapshot
  induction snapshot with
  | nil =>
    intro cur acc q _ hq
    simpa [reapFold] using hq
  | cons p rest ih =>
    intro cur acc q hsafe hq
    unfold reapFold
    simp only [List.foldl_cons]
    by_cases hp : p.2 < now
    · rw [if_pos hp]
      have hpq : p.1 ≠ q.1 := by
        intro h
        exact hsafe p (by simp) h hp
      refine ih (hdelField cur p.1) acc q (fun r hr hrk => hsafe r (by simp [hr]) hrk) ?_
      unfold hdelField
      refine List.mem_filter.mpr ⟨hq, ?_⟩
      simp
      intro h
      exact absurd h.symm hpq
    · rw [if_neg hp]
      by_cases ha : acc < p.2
      · rw [if_pos ha]
        exact ih cur p.2 q (fun r hr hrk => hsafe r (by simp [hr]) hrk) hq
      · rw [if_neg ha]
        exact ih cur acc q (fun r hr hrk => hsafe r (by simp [hr]) hrk) hq

theorem getUserIDBySessionID_ok (now : Nat) (sid : String) (dur : Nat)
    (st : SessionStore) (p : SessionEntry)
    (h : livePrimary now (st.primary sid) = some p) :
    (GetUserIDBySessionID now sid dur st).1 = .ok p.userID := by
  unfold GetUserIDBySessionID
  rw [h]

/-- C1: for every limit >= 1 and window > 0, the Nth call to the fixed-window
counter (`AllowSendMobile` / `IncrementMobileCodeIncorrect`, both delegating
to `evalFixedWindow`) on the same key within one window returns a
`LimitDecision` with `Count = N` and `Allowed = decide (N <= limit)` — so the
invariant `Allowed = (Count <= Limit)` holds on every result and the count
strictly increases with each call — and a later call at or after the window
boundary resets the count to 1. -/

theorem fixedWindow_nth_and_rollover (limit windowMs : Int) (hl : 1 ≤ limit)
    (hw : 0 < windowMs) (t0 : Nat) (ts : List Nat)
    (hts : ∀ t ∈ ts, t0 ≤ t ∧ t < t0 + windowMs.toNat) :
    (∀ (i : Nat) (t : Nat), (t0 :: ts)[i]? = some t →
        (runFixedWindow limit windowMs (t0 :: ts) none).1[i]? =
          some (.ok { Allowed := decide (((i + 1 : Nat) : Int) ≤ limit),
                      Count := ((i + 1 : Nat) : Int), Limit := limit,
                      ResetIn := ((t0 + windowMs.toNat : Nat) : Int) - (t : Int) })) ∧
    (runFixedWindow limit windowMs (t0 :: ts) none).2 =
      some { value := ts.length + 1, expireAtMs := some (t0 + windowMs.toNat) } ∧
    (∀ u : Nat, t0 + windowMs.toNat ≤ u →
        evalFixedWindow limit windowMs u (runFixedWindow limit windowMs (t0 :: ts) none).2 =
          .ok ({ Allowed := true, Count := 1, Limit := limit, ResetIn := windowMs },
               { value := 1, expireAtMs := some (u + windowMs.toNat) })) := by
  have hfresh := evalFixedWindow_fresh limit windowMs hw (by omega) t0 none rfl
  have hsteady := runFixedWindow_steady limit windowMs hw (by omega) (t0 + windowMs.toNat) ts 1
    (fun t ht => (hts t ht).2)
  have hstep :
      runFixedWindow limit windowMs (t0 :: ts) none =
      (.ok { Allowed := decide ((1 : Int) ≤ limit), Count := 1, Limit := limit,
             ResetIn := windowMs } ::
         (runFixedWindow limit windowMs ts
           (some { value := 1, expireAtMs := some (t0 + windowMs.toNat) })).1,
       (runFixedWindow limit windowMs ts
           (some { value := 1, expireAtMs := some (t0 + windowMs.toNat) })).2) := by
    rw [runFixedWindow, hfresh]
  refine ⟨?_, ?_, ?_⟩
  · intro i t ht
    rw [hstep]
    cases i with
    | zero =>
      simp at ht
      subst ht
      have harith : ((t0 + windowMs.toNat : Nat) : Int) - (t0 : Int) = windowMs := by omega
      simp [harith]
      omega
    | succ i =>
      simp only [List.getElem?_cons_succ] at ht ⊢
      have hi := hsteady.2 i t ht
      have harith : 1 + i + 1 = i + 1 + 1 := by omega
      rw [harith] at hi
      exact hi
  · rw [hstep]
    have := hsteady.1
    simpa [Nat.add_comm 1 ts.length] using this
  · intro u hu
    rw [hstep]
    have h2 := hsteady.1
    simp only [] at h2
    rw [h2]
    have hdead : liveCounter u
        (some { value := 1 + ts.length, expireAtMs := some (t0 + windowMs.toNat) }) = none := by
      simp [liveCounter, Nat.not_lt.mpr hu]
    have := evalFixedWindow_fresh limit windowMs hw (by omega) u _ hdead
    rw [this]
    simp [hl]

/-- C2: with `maxVerifyIncorrect = 2`, three consecutive wrong
`VerifyMobileOTP` calls against a stored credential return `CodeIncorrect`,
`CodeIncorrect`, then `VerifyLimitExceeded`; the third call deletes the
stored credential and clears the failure counter, so a fourth call for the
same sequence — with any input, including the correct code — returns
`NotFound`. -/

theorem verifyMobileOTP_lockout_scenario (pfx : String) (pol : OTPPolicy)
    (t1 t2 t3 t4 : Nat) (typ sequence mobile countryCode w1 w2 w3 input4 : String)
    (st : OTPStore) (sc : SerializedMobileCode) (E : Nat)
    (hmax : pol.maxVerifyIncorrect = 2) (hw : 0 < pol.verifyWindowMs)
    (hcode : st.codes (mobileCodeKey pfx typ sequence mobile countryCode) =
      some { value := sc, expireAtMs := some E })
    (hfail : st.counters (mobileIncorrectKey pfx typ sequence mobile countryCode) = none)
    (ht1 : t1 < E) (ht2 : t2 < E)
    (ht2w : t2 < t1 + pol.verifyWindowMs.toNat)
    (ht3w : t3 < t1 + pol.verifyWindowMs.toNat)
    (hw1 : sc.Code ≠ w1) (hw2 : sc.Code ≠ w2) (hw3 : sc.Code ≠ w3) :
    (VerifyMobileOTP pfx pol t1 typ sequence mobile countryCode w1 st).1 =
      .error .codeIncorrect ∧
    (VerifyMobileOTP pfx pol t2 typ sequence mobile countryCode w2
        (VerifyMobileOTP pfx pol t1 typ sequence mobile countryCode w1 st).2.1).1 =
      .error .codeIncorrect ∧
    (VerifyMobileOTP pfx pol t3 typ sequence mobile countryCode w3
        (VerifyMobileOTP pfx pol t2 typ sequence mobile countryCode w2
          (VerifyMobileOTP pfx pol t1 typ sequence mobile countryCode w1 st).2.1).2.1).1 =
      .error .mobileVerifyLimitExceeded ∧
    (VerifyMobileOTP pfx pol t3 typ sequence mobile countryCode w3
        (VerifyMobileOTP pfx pol t2 typ sequence mobile countryCode w2
          (VerifyMobileOTP pfx pol t1 typ sequence mobile countryCode w1 st).2.1).2.1).2.1.codes
        (mobileCodeKey pfx typ sequence mobile countryCode) = none ∧
    (VerifyMobileOTP pfx pol t3 typ sequence mobile countryCode w3
        (VerifyMobileOTP pfx pol t2 typ sequence mobile countryCode w2
          (VerifyMobileOTP pfx pol t1 typ sequence mobile countryCode w1 st).2.1).2.1).2.1.counters
        (mobileIncorrectKey pfx typ sequence mobile countryCode) = none ∧
    (VerifyMobileOTP pfx pol t4 typ sequence mobile countryCode input4
        (VerifyMobileOTP pfx pol t3 typ sequence mobile countryCode w3
          (VerifyMobileOTP pfx pol t2 typ sequence mobile countryCode w2
            (VerifyMobileOTP pfx pol t1 typ sequence mobile countryCode w1 st).2.1).2.1).2.1).1 =
      .error .codeNotFound := by
  have h1 := verifyMobileOTP_wrong_fresh pfx pol t1 typ sequence mobile countryCode w1 st
    { value := sc, expireAtMs := some E } (by omega) hw hfail
    (by rw [hcode]; simp [liveCode, ht1]) hw1
  have e1 : (VerifyMobileOTP pfx pol t1 typ sequence mobile countryCode w1 st).2.1 =
      { st with
        counters := updateFn st.counters
          (mobileIncorrectKey pfx typ sequence mobile countryCode)
          (some { value := 1, expireAtMs := some (t1 + pol.verifyWindowMs.toNat) }) } := by
    rw [h1]
  have h2 := verifyMobileOTP_wrong_live pfx pol t2 typ sequence mobile countryCode w2
    { st with
      counters := updateFn st.counters
        (mobileIncorrectKey pfx typ sequence mobile countryCode)
        (some { value := 1, expireAtMs := some (t1 + pol.verifyWindowMs.toNat) }) }
    { value := sc, expireAtMs := some E } 1 (t1 + pol.verifyWindowMs.toNat) hw
    (by simp [updateFn]) ht2w (by omega)
    (by rw [show ({ st with
        counters := updateFn st.counters
          (mobileIncorrectKey pfx typ sequence mobile countryCode)
          (some { value := 1,
                  expireAtMs := some (t1 + pol.verifyWindowMs.toNat) }) } : OTPStore).codes =
        st.codes from rfl, hcode]; simp [liveCode, ht2]) hw2
  have e2 : (VerifyMobileOTP pfx pol t2 typ sequence mobile countryCode w2
      (VerifyMobileOTP pfx pol t1 typ sequence mobile countryCode w1 st).2.1).2.1 =
      { st with
        counters := updateFn
          (updateFn st.counters (mobileIncorrectKey pfx typ sequence mobile countryCode)
            (some { value := 1, expireAtMs := some (t1 + pol.verifyWindowMs.toNat) }))
          (mobileIncorrectKey pfx typ sequence mobile countryCode)
          (some { value := 2, expireAtMs := some (t1 + pol.verifyWindowMs.toNat) }) } := by
    rw [e1, h2]
  have h3 := verifyMobileOTP_lockout pfx pol t3 typ sequence mobile countryCode w3
    { st with
      counters := updateFn
        (updateFn st.counters (mobileIncorrectKey pfx typ sequence mobile countryCode)
          (some { value := 1, expireAtMs := some (t1 + pol.verifyWindowMs.toNat) }))
        (mobileIncorrectKey pfx typ sequence mobile countryCode)
        (some { value := 2, expireAtMs := some (t1 + pol.verifyWindowMs.toNat) }) }
    2 (t1 + pol.verifyWindowMs.toNat) (by simp [updateFn]) ht3w (by omega)
  have e3 : (VerifyMobileOTP pfx pol t3 typ sequence mobile countryCode w3
      (VerifyMobileOTP pfx pol t2 typ sequence mobile countryCode w2
        (VerifyMobileOTP pfx pol t1 typ sequence mobile countryCode w1 st).2.1).2.1).2.1 =
      { st with
        codes := updateFn st.codes (mobileCodeKey pfx typ sequence mobile countryCode) none,
        counters := updateFn
          (updateFn
            (updateFn st.counters (mobileIncorrectKey pfx typ sequence mobile countryCode)
              (some { value := 1, expireAtMs := some (t1 + pol.verifyWindowMs.toNat) }))
            (mobileIncorrectKey pfx typ sequence mobile countryCode)
            (some { value := 2, expireAtMs := some (t1 + pol.verifyWindowMs.toNat) }))
          (mobileIncorrectKey pfx typ sequence mobile countryCode) none } := by
    rw [e2, h3]
  have h4 := verifyMobileOTP_notfound pfx pol t4 typ sequence mobile countryCode input4
    { st with
      codes := updateFn st.codes (mobileCodeKey pfx typ sequence mobile countryCode) none,
      counters := updateFn
        (updateFn
          (updateFn st.counters (mobileIncorrectKey pfx typ sequence mobile countryCode)
            (some { value := 1, expireAtMs := some (t1 + pol.verifyWindowMs.toNat) }))
          (mobileIncorrectKey pfx typ sequence mobile countryCode)
          (some { value := 2, expireAtMs := some (t1 + pol.verifyWindowMs.toNat) }))
        (mobileIncorrectKey pfx typ sequence mobile countryCode) none }
    (by omega) (by simp [updateFn]) (by simp [updateFn, liveCode])
  refine ⟨by rw [h1], by rw [e1, h2], by rw [e2, h3], ?_, ?_, by rw [e3, h4]⟩
  · rw [e3]
    simp [updateFn]
  · rw [e3]
    simp [updateFn]

/-- C3: after `SendMobileOTP` returns the generated sequence,
`VerifyMobileOTP` with that sequence and the correct code succeeds, deletes
the stored credential and clears the failure counter; a second
`VerifyMobileOTP` with the same sequence then returns `NotFound`. -/

theorem sendMobileOTP_then_verify_happy_path (pfx : String) (pol : OTPPolicy)
    (fac : CodeFactoryOutput) (t1 t2 t3 : Nat) (typ : String) (userID : Int)
    (mobile countryCode input3 : String) (st : OTPStore)
    (hls : 0 < pol.maxSendAttempts) (hws : 0 < pol.sendWindowMs)
    (hmv : 0 < pol.maxVerifyIncorrect) (httl : 0 < pol.ttlMs) (htyp : typ ≠ "")
    (hKsend : liveCounter t1 (st.counters (mobileLimitKey pfx typ mobile countryCode)) =
      none)
    (hKfail : st.counters (mobileIncorrectKey pfx typ fac.sequence mobile countryCode) =
      none)
    (hkeys : mobileIncorrectKey pfx typ fac.sequence mobile countryCode ≠
      mobileLimitKey pfx typ mobile countryCode)
    (ht2 : t2 < t1 + pol.ttlMs.toNat) :
    (SendMobileOTP pfx pol fac true t1 typ userID mobile countryCode st).1 =
      .ok fac.sequence ∧
    (VerifyMobileOTP pfx pol t2 typ fac.sequence mobile countryCode fac.codeValue
        (SendMobileOTP pfx pol fac true t1 typ userID mobile countryCode st).2.1).1 =
      .ok () ∧
    (VerifyMobileOTP pfx pol t2 typ fac.sequence mobile countryCode fac.codeValue
        (SendMobileOTP pfx pol fac true t1 typ userID mobile countryCode st).2.1).2.1.codes
      (mobileCodeKey pfx typ fac.sequence mobile countryCode) = none ∧
    (VerifyMobileOTP pfx pol t2 typ fac.sequence mobile countryCode fac.codeValue
        (SendMobileOTP pfx pol fac true t1 typ userID mobile countryCode st).2.1).2.1.counters
      (mobileIncorrectKey pfx typ fac.sequence mobile countryCode) = none ∧
    (VerifyMobileOTP pfx pol t3 typ fac.sequence mobile countryCode input3
        (VerifyMobileOTP pfx pol t2 typ fac.sequence mobile countryCode fac.codeValue
          (SendMobileOTP pfx pol fac true t1 typ userID mobile countryCode st).2.1).2.1).1 =
      .error .codeNotFound := by
  have hS := sendMobileOTP_fresh_ok pfx pol fac t1 typ userID mobile countryCode st
    hls hws htyp hKsend
  have hkeyeq : mobileCodeKey pfx (goToUpper typ) fac.sequence mobile countryCode =
      mobileCodeKey pfx typ fac.sequence mobile countryCode := by
    unfold mobileCodeKey
    rw [goToUpper_idem]
  have eS : (SendMobileOTP pfx pol fac true t1 typ userID mobile countryCode st).2.1 =
      SetMobileCode pfx t1 (generatedMobileCode typ userID mobile countryCode fac) pol.ttlMs
        { st with
          counters := updateFn st.counters (mobileLimitKey pfx typ mobile countryCode)
            (some { value := 1, expireAtMs := some (t1 + pol.sendWindowMs.toNat) }) } := by
    rw [hS]
  have hfailS : (SetMobileCode pfx t1 (generatedMobileCode typ userID mobile countryCode fac)
      pol.ttlMs
      { st with
        counters := updateFn st.counters (mobileLimitKey pfx typ mobile countryCode)
          (some { value := 1,
                  expireAtMs := some (t1 + pol.sendWindowMs.toNat) }) }).counters
      (mobileIncorrectKey pfx typ fac.sequence mobile countryCode) = none := by
    simp only [SetMobileCode, updateFn]
    rw [if_neg hkeys]
    exact hKfail
  have hlook := setMobileCode_codes_lookup pfx t1
    (generatedMobileCode typ userID mobile countryCode fac) pol.ttlMs
    { st with
      counters := updateFn st.counters (mobileLimitKey pfx typ mobile countryCode)
        (some { value := 1, expireAtMs := some (t1 + pol.sendWindowMs.toNat) }) }
  simp only [generatedMobileCode] at hlook
  rw [hkeyeq, if_pos httl] at hlook
  have hpeekS : liveCode t2
      ((SetMobileCode pfx t1 (generatedMobileCode typ userID mobile countryCode fac)
        pol.ttlMs
        { st with
          counters := updateFn st.counters (mobileLimitKey pfx typ mobile countryCode)
            (some { value := 1,
                    expireAtMs := some (t1 + pol.sendWindowMs.toNat) }) }).codes
        (mobileCodeKey pfx typ fac.sequence mobile countryCode)) =
      some { value := gobEncodeMobileCode
               (generatedMobileCode typ userID mobile countryCode fac),
             expireAtMs := some (t1 + pol.ttlMs.toNat) } := by
    rw [show (SetMobileCode pfx t1 (generatedMobileCode typ userID mobile countryCode fac)
        pol.ttlMs
        { st with
          counters := updateFn st.counters (mobileLimitKey pfx typ mobile countryCode)
            (some { value := 1,
                    expireAtMs := some (t1 + pol.sendWindowMs.toNat) }) }).codes
        (mobileCodeKey pfx typ fac.sequence mobile countryCode) =
        some { value := gobEncodeMobileCode
                 (generatedMobileCode typ userID mobile countryCode fac),
               expireAtMs := some (t1 + pol.ttlMs.toNat) } from hlook]
    simp [liveCode, ht2]
  have hV := verifyMobileOTP_correct pfx pol t2 typ fac.sequence mobile countryCode
    fac.codeValue
    (SetMobileCode pfx t1 (generatedMobileCode typ userID mobile countryCode fac) pol.ttlMs
      { st with
        counters := updateFn st.counters (mobileLimitKey pfx typ mobile countryCode)
          (some { value := 1, expireAtMs := some (t1 + pol.sendWindowMs.toNat) }) })
    { value := gobEncodeMobileCode (generatedMobileCode typ userID mobile countryCode fac),
      expireAtMs := some (t1 + pol.ttlMs.toNat) }
    hmv hfailS hpeekS rfl
  have eV : (VerifyMobileOTP pfx pol t2 typ fac.sequence mobile countryCode fac.codeValue
      (SendMobileOTP pfx pol fac true t1 typ userID mobile countryCode st).2.1).2.1 =
      ({ codes := updateFn
           (SetMobileCode pfx t1 (generatedMobileCode typ userID mobile countryCode fac)
             pol.ttlMs
             { st with
               counters := updateFn st.counters (mobileLimitKey pfx typ mobile countryCode)
                 (some { value := 1,
                         expireAtMs := some (t1 + pol.sendWindowMs.toNat) }) }).codes
           (mobileCodeKey pfx typ fac.sequence mobile countryCode) none,
         counters := updateFn
           (SetMobileCode pfx t1 (generatedMobileCode typ userID mobile countryCode fac)
             pol.ttlMs
             { st with
               counters := updateFn st.counters (mobileLimitKey pfx typ mobile countryCode)
                 (some { value := 1,
                         expireAtMs := some (t1 + pol.sendWindowMs.toNat) }) }).counters
           (mobileIncorrectKey pfx typ fac.sequence mobile countryCode) none } : OTPStore) := by
    rw [eS, hV]
  have hV2 := verifyMobileOTP_notfound pfx pol t3 typ fac.sequence mobile countryCode input3
    ({ codes := updateFn
         (SetMobileCode pfx t1 (generatedMobileCode typ userID mobile countryCode fac)
           pol.ttlMs
           { st with
             counters := updateFn st.counters (mobileLimitKey pfx typ mobile countryCode)
               (some { value := 1,
                       expireAtMs := some (t1 + pol.sendWindowMs.toNat) }) }).codes
         (mobileCodeKey pfx typ fac.sequence mobile countryCode) none,
       counters := updateFn
         (SetMobileCode pfx t1 (generatedMobileCode typ userID mobile countryCode fac)
           pol.ttlMs
           { st with
             counters := updateFn st.counters (mobileLimitKey pfx typ mobile countryCode)
               (some { value := 1,
                       expireAtMs := some (t1 + pol.sendWindowMs.toNat) }) }).counters
         (mobileIncorrectKey pfx typ fac.sequence mobile countryCode) none } : OTPStore)
    hmv (by simp [updateFn]) (by simp [updateFn, liveCode])
  refine ⟨by rw [hS], by rw [eS, hV], ?_, ?_, by rw [eV, hV2]⟩
  · rw [eV]
    simp [updateFn]
  · rw [eV]
    simp [updateFn]

/-- C5: `SetMobileCode` followed by `PeekMobileCode` before expiry succeeds
and returns a credential equal to the stored one in every serialized field,
including the message template and its substitution arguments, while the
message-formatting function is not serialized (it decodes to `none`). -/

theorem setMobileCode_peekMobileCode_roundtrip (pfx : String) (mc : MobileCode)
    (expireMs : Int) (hexp : 0 < expireMs) (nowSet nowPeek : Nat)
    (hlive : nowPeek < nowSet + expireMs.toNat) (st : OTPStore) :
    ∃ res : MobileCode,
      PeekMobileCode pfx nowPeek mc.«Type» mc.Sequence mc.Mobile mc.CountryCode
          (SetMobileCode pfx nowSet mc expireMs st) = .ok res ∧
      res.UserID = mc.UserID ∧ res.«Type» = mc.«Type» ∧ res.Sequence = mc.Sequence ∧
      res.CodeLength = mc.CodeLength ∧ res.Code = mc.Code ∧ res.Content = mc.Content ∧
      res.Args = mc.Args ∧ res.Mobile = mc.Mobile ∧ res.CountryCode = mc.CountryCode ∧
      res.Format = none := by
  refine ⟨gobDecodeMobileCode (gobEncodeMobileCode mc), ?_, rfl, rfl, rfl, rfl, rfl, rfl,
    rfl, rfl, rfl, rfl⟩
  unfold PeekMobileCode SetMobileCode updateFn liveCode
  simp [if_pos hexp, hlive]

/-- C6: with send limit 2 per window, the third `SendMobileOTP` within the
same window for the same (type, target) returns `SendLimitExceeded`, its
call trace contains only the rate-limiter check — so neither the code
generator, nor the code store, nor the sender is invoked — and the stored
credentials are untouched by that call. -/

theorem sendMobileOTP_throttles_third_send (pfx : String) (pol : OTPPolicy)
    (fac1 fac2 fac3 : CodeFactoryOutput) (t1 t2 t3 : Nat) (typ : String) (userID : Int)
    (mobile countryCode : String) (st : OTPStore)
    (hlimit : pol.maxSendAttempts = 2) (hw : 0 < pol.sendWindowMs) (htyp : typ ≠ "")
    (hK : st.counters (mobileLimitKey pfx typ mobile countryCode) = none)
    (h2w : t2 < t1 + pol.sendWindowMs.toNat) (h3w : t3 < t1 + pol.sendWindowMs.toNat) :
    (SendMobileOTP pfx pol fac1 true t1 typ userID mobile countryCode st).1 =
      .ok fac1.sequence ∧
    (SendMobileOTP pfx pol fac2 true t2 typ userID mobile countryCode
        (SendMobileOTP pfx pol fac1 true t1 typ userID mobile countryCode st).2.1).1 =
      .ok fac2.sequence ∧
    (SendMobileOTP pfx pol fac3 true t3 typ userID mobile countryCode
        (SendMobileOTP pfx pol fac2 true t2 typ userID mobile countryCode
          (SendMobileOTP pfx pol fac1 true t1 typ userID mobile countryCode st).2.1).2.1).1 =
      .error .mobileSendLimitExceeded ∧
    (SendMobileOTP pfx pol fac3 true t3 typ userID mobile countryCode
        (SendMobileOTP pfx pol fac2 true t2 typ userID mobile countryCode
          (SendMobileOTP pfx pol fac1 true t1 typ userID mobile countryCode st).2.1).2.1).2.2 =
      [.allowSendChecked] ∧
    (SendMobileOTP pfx pol fac3 true t3 typ userID mobile countryCode
        (SendMobileOTP pfx pol fac2 true t2 typ userID mobile countryCode
          (SendMobileOTP pfx pol fac1 true t1 typ userID mobile countryCode st).2.1).2.1).2.1.codes =
      (SendMobileOTP pfx pol fac2 true t2 typ userID mobile countryCode
          (SendMobileOTP pfx pol fac1 true t1 typ userID mobile countryCode st).2.1).2.1.codes := by
  have hl : 0 < pol.maxSendAttempts := by omega
  have hr1 := sendMobileOTP_fresh_ok pfx pol fac1 t1 typ userID mobile countryCode st
    hl hw htyp (by rw [hK]; rfl)
  have hK1 : ((SendMobileOTP pfx pol fac1 true t1 typ userID mobile countryCode st).2.1).counters
      (mobileLimitKey pfx typ mobile countryCode) =
      some { value := 1, expireAtMs := some (t1 + pol.sendWindowMs.toNat) } := by
    rw [hr1]
    simp [SetMobileCode, updateFn]
  have hr2 := sendMobileOTP_live_ok pfx pol fac2 t2 typ userID mobile countryCode
    (SendMobileOTP pfx pol fac1 true t1 typ userID mobile countryCode st).2.1
    1 (t1 + pol.sendWindowMs.toNat) hw htyp hK1 h2w (by rw [hlimit]; norm_num)
  have hK2 : ((SendMobileOTP pfx pol fac2 true t2 typ userID mobile countryCode
      (SendMobileOTP pfx pol fac1 true t1 typ userID mobile countryCode st).2.1).2.1).counters
      (mobileLimitKey pfx typ mobile countryCode) =
      some { value := 2, expireAtMs := some (t1 + pol.sendWindowMs.toNat) } := by
    rw [hr2]
    simp [SetMobileCode, updateFn]
  have hr3 := sendMobileOTP_live_denied pfx pol fac3 true t3 typ userID mobile countryCode
    (SendMobileOTP pfx pol fac2 true t2 typ userID mobile countryCode
      (SendMobileOTP pfx pol fac1 true t1 typ userID mobile countryCode st).2.1).2.1
    2 (t1 + pol.sendWindowMs.toNat) hl hw hK2 h3w (by rw [hlimit]; norm_num)
  refine ⟨by rw [hr1], by rw [hr2], by rw [hr3], by rw [hr3], by rw [hr3]⟩

/-- C7: a `VerifyMobileOTP` call with an incorrect input against a stored,
not-locked-out credential returns `CodeIncorrect`, increments the failure
counter by one, and leaves the credential store completely unchanged, so a
subsequent `PeekMobileCode` still finds the identical credential. -/

theorem verifyMobileOTP_wrong_guess_frame (pfx : String) (pol : OTPPolicy) (now : Nat)
    (typ sequence mobile countryCode input : String) (st : OTPStore) (stored : MobileCode)
    (hcnt : GetMobileCodeIncorrectCount pfx now typ sequence mobile countryCode st <
      pol.maxVerifyIncorrect)
    (hpeek : PeekMobileCode pfx now typ sequence mobile countryCode st = .ok stored)
    (hwrong : stored.Code ≠ input)
    (hw : 0 < pol.verifyWindowMs) :
    (VerifyMobileOTP pfx pol now typ sequence mobile countryCode input st).1 =
      .error .codeIncorrect ∧
    (VerifyMobileOTP pfx pol now typ sequence mobile countryCode input st).2.1.codes =
      st.codes ∧
    GetMobileCodeIncorrectCount pfx now typ sequence mobile countryCode
        (VerifyMobileOTP pfx pol now typ sequence mobile countryCode input st).2.1 =
      GetMobileCodeIncorrectCount pfx now typ sequence mobile countryCode st + 1 ∧
    PeekMobileCode pfx now typ sequence mobile countryCode
        (VerifyMobileOTP pfx pol now typ sequence mobile countryCode input st).2.1 =
      .ok stored := by
  have hmax : 0 < pol.maxVerifyIncorrect :=
    lt_of_le_of_lt (getMobileCodeIncorrectCount_nonneg pfx now typ sequence mobile
      countryCode st) hcnt
  obtain ⟨d, st', hinc, hcodes, hget⟩ :=
    incrementMobileCodeIncorrect_spec pfx now typ sequence mobile countryCode
      pol.maxVerifyIncorrect pol.verifyWindowMs hmax hw st
  have hrun : VerifyMobileOTP pfx pol now typ sequence mobile countryCode input st =
      (.error .codeIncorrect, st',
       [.incorrectCountRead, .codePeeked, .incorrectIncremented]) := by
    unfold VerifyMobileOTP
    rw [if_neg (not_le.mpr hcnt), hpeek]
    simp only []
    rw [if_pos hwrong, hinc]
  rw [hrun]
  exact ⟨rfl, hcodes, hget, by
    rw [peekMobileCode_congr pfx now typ sequence mobile countryCode st st' hcodes]
    exact hpeek⟩

/-- C8: `GetUserIDBySessionID` returns `SessionNotFound` iff the primary
session key is absent or expired; on success it returns the stored user id,
sets the primary key expiry and the user's session-index entry to
`now + dur`, and the session remains resolvable at any time before
`now + dur`. -/

theorem getUserIDBySessionID_spec (st : SessionStore) (now : Nat) (sid : String)
    (dur : Nat) :
    ((GetUserIDBySessionID now sid dur st).1 = .error .sessionNotFound ↔
      livePrimary now (st.primary sid) = none) ∧
    (∀ e, livePrimary now (st.primary sid) = some e →
      (GetUserIDBySessionID now sid dur st).1 = .ok e.userID ∧
      (GetUserIDBySessionID now sid dur st).2.primary sid =
        some { userID := e.userID, expireAtSec := some (now + dur) } ∧
      (∃ m, (GetUserIDBySessionID now sid dur st).2.maps e.userID = some m ∧
        hgetField m.fields sid = some (now + dur)) ∧
      (∀ u, now ≤ u → u < now + dur →
        (GetUserIDBySessionID u sid dur (GetUserIDBySessionID now sid dur st).2).1 =
          .ok e.userID)) := by
  cases hlp : livePrimary now (st.primary sid) with
  | none =>
    constructor
    · unfold GetUserIDBySessionID
      rw [hlp]
      simp
    · intro e he
      exact absurd he (by simp)
  | some e =>
    have hrun : GetUserIDBySessionID now sid dur st =
        (.ok e.userID,
         { primary := updateFn st.primary sid
             (some { userID := e.userID, expireAtSec := some (now + dur) }),
           maps :=
             match liveMap now (st.maps e.userID) with
             | none =>
               updateFn st.maps e.userID
                 (some { fields := hsetField [] sid (now + dur), expireAtSec := none })
             | some m =>
               updateFn st.maps e.userID
                 (some { fields := hsetField m.fields sid (now + dur),
                         expireAtSec := some (now + dur) }) }) := by
      unfold GetUserIDBySessionID
      rw [hlp]
    constructor
    · rw [hrun]
      simp [hlp]
    · intro e' he'
      cases he'
      have hprim : (GetUserIDBySessionID now sid dur st).2.primary sid =
          some { userID := e.userID, expireAtSec := some (now + dur) } := by
        rw [hrun]
        simp [updateFn]
      refine ⟨by rw [hrun], hprim, ?_, ?_⟩
      · rw [hrun]
        cases hm : liveMap now (st.maps e.userID) with
        | none =>
          refine ⟨{ fields := hsetField [] sid (now + dur), expireAtSec := none },
            by simp [updateFn], ?_⟩
          unfold hgetField hsetField
          simp
        | some m =>
          refine ⟨{ fields := hsetField m.fields sid (now + dur),
                    expireAtSec := some (now + dur) },
            by simp [updateFn], ?_⟩
          unfold hgetField
          cases hfind : (hsetField m.fields sid (now + dur)).find?
              (fun p => p.1 == sid) with
          | none =>
            exfalso
            obtain ⟨q, hq, hqk⟩ := hsetField_exists_key m.fields sid (now + dur)
            have : ((hsetField m.fields sid (now + dur)).find?
                (fun p => p.1 == sid)).isSome :=
              List.find?_isSome.mpr ⟨q, hq, by simp [hqk]⟩
            rw [hfind] at this
            simp at this
          | some r =>
            have hrmem := List.mem_of_find?_eq_some hfind
            have hrk : r.1 = sid := by
              have := List.find?_some hfind
              simpa using this
            have := hsetField_key_all m.fields sid (now + dur) r hrmem hrk
            simp [this]
      · intro u hu1 hu2
        exact getUserIDBySessionID_ok u sid dur (GetUserIDBySessionID now sid dur st).2
          { userID := e.userID, expireAtSec := some (now + dur) }
          (by rw [hprim]; simp [livePrimary, hu2])

/-- C9: `DeleteMobileCodeIncorrect` always succeeds with no error — in
particular on a key that was never set — it clears the counter key, leaves
the credential store untouched, and calling it a second time returns the
exact same store, so calling it twice equals calling it once. -/

theorem deleteMobileCodeIncorrect_idempotent (pfx typ sequence mobile countryCode : String)
    (st : OTPStore) :
    ∃ st' : OTPStore,
      DeleteMobileCodeIncorrect pfx typ sequence mobile countryCode st = .ok st' ∧
      st'.counters (mobileIncorrectKey pfx typ sequence mobile countryCode) = none ∧
      st'.codes = st.codes ∧
      DeleteMobileCodeIncorrect pfx typ sequence mobile countryCode st' = .ok st' := by
  refine ⟨_, rfl, ?_, rfl, ?_⟩
  · simp [updateFn]
  · unfold DeleteMobileCodeIncorrect
    simp [updateFn_idem]

/-- C10: `SendMobileOTP` with an empty type tag consults and increments the
send-window counter before the generator's empty-type check runs, so when
the quota is not yet exhausted the call returns the empty-type error yet
still consumes one unit of the send quota (its trace shows the limiter check
before the generator call), and once the quota is exhausted it returns
`SendLimitExceeded` instead. -/

theorem sendMobileOTP_empty_type_consumes_quota (pfx : String) (pol : OTPPolicy)
    (fac : CodeFactoryOutput) (senderOk : Bool) (now : Nat) (userID : Int)
    (mobile countryCode : String) (st : OTPStore) (c E : Nat)
    (hl : 0 < pol.maxSendAttempts) (hw : 0 < pol.sendWindowMs)
    (hK : st.counters (mobileLimitKey pfx "" mobile countryCode) =
      some { value := c, expireAtMs := some E })
    (hE : now < E) :
    (((c : Int) + 1) ≤ pol.maxSendAttempts →
       (SendMobileOTP pfx pol fac senderOk now "" userID mobile countryCode st).1 =
         .error .codeTypeIsEmpty ∧
       (SendMobileOTP pfx pol fac senderOk now "" userID mobile countryCode st).2.1.counters
           (mobileLimitKey pfx "" mobile countryCode) =
         some { value := c + 1, expireAtMs := some E } ∧
       (SendMobileOTP pfx pol fac senderOk now "" userID mobile countryCode st).2.2 =
         [.allowSendChecked, .generatorCalled]) ∧
    (pol.maxSendAttempts < ((c : Int) + 1) →
       (SendMobileOTP pfx pol fac senderOk now "" userID mobile countryCode st).1 =
         .error .mobileSendLimitExceeded ∧
       (SendMobileOTP pfx pol fac senderOk now "" userID mobile countryCode st).2.1.counters
           (mobileLimitKey pfx "" mobile countryCode) =
         some { value := c + 1, expireAtMs := some E }) := by
  constructor
  · intro hok
    have hrun : SendMobileOTP pfx pol fac senderOk now "" userID mobile countryCode st =
        (.error .codeTypeIsEmpty,
         { st with
           counters := updateFn st.counters (mobileLimitKey pfx "" mobile countryCode)
             (some { value := c + 1, expireAtMs := some E }) },
         [.allowSendChecked, .generatorCalled]) := by
      unfold SendMobileOTP AllowSendMobile
      rw [hK, evalFixedWindow_live pol.maxSendAttempts pol.sendWindowMs hw hl now c E hE]
      unfold NewMobileCode
      simp [hok]
    rw [hrun]
    exact ⟨rfl, by simp [updateFn], rfl⟩
  · intro hdeny
    have hrun := sendMobileOTP_live_denied pfx pol fac senderOk now "" userID mobile
      countryCode st c E hl hw hK hE hdeny
    rw [hrun]
    exact ⟨rfl, by simp [updateFn]⟩

/-- C4 (counterexample): a concrete run violating the claimed invariant.
User 1 issues session A with TTL 100 s and session B with TTL 10 s at time
0, then resolves B with sliding TTL 10 s at time 1, which resets the index
key TTL to 11.  At time 50 session A's primary record is alive and unexpired
while the per-user index has expired entirely, so the index does not contain
the unexpired session A: the index key's expiry dropped an unexpired
session's entry before that session's recorded expiry. -/

theorem sessionScenario_counterexample :
    livePrimary 50 (sessionScenarioStore.primary "A") =
      some { userID := 1, expireAtSec := some 100 } ∧
    liveMap 50 (sessionScenarioStore.maps 1) = none := by
  constructor <;> rfl

/-- C4 (amended): immediately after every `SetUserSessionID`, the per-user
index hash contains exactly the entries of the updated hash whose recorded
expiry is at least the operation timestamp, the index key expiry is at least
every remaining entry's recorded expiry, and the new session's entry is
present with expiry `now + dur`.  The original claim — that the invariant
holds at all times under arbitrary `SetUserSessionID` /
`GetUserIDBySessionID` sequences — is false:
`sessionScenario_counterexample` shows `GetUserIDBySessionID` resetting the
index key TTL to its own sliding TTL and thereby dropping another unexpired
session's entry. -/

theorem setUserSessionID_index_after_set (st : SessionStore) (now : Nat) (sid : String)
    (uid : Int) (dur : Nat)
    (hnd : ((mapFieldsView now (st.maps uid)).map Prod.fst).Nodup) :
    ∃ flds ttlTs,
      (SetUserSessionID now sid uid dur st).maps uid =
        some { fields := flds, expireAtSec := some ttlTs } ∧
      (∀ q, q ∈ flds ↔
        (q ∈ hsetField (mapFieldsView now (st.maps uid)) sid (now + dur) ∧ now ≤ q.2)) ∧
      (∀ q ∈ flds, q.2 ≤ ttlTs) ∧
      hgetField flds sid = some (now + dur) ∧
      now + dur ≤ ttlTs ∧
      (SetUserSessionID now sid uid dur st).primary sid =
        some { userID := uid, expireAtSec := some (now + dur) } := by
  have hnd1 : ((hsetField (mapFieldsView now (st.maps uid)) sid (now + dur)).map
      Prod.fst).Nodup := hsetField_keys_nodup _ sid (now + dur) hnd
  refine ⟨(reapFold now (hsetField (mapFieldsView now (st.maps uid)) sid (now + dur))
            (hsetField (mapFieldsView now (st.maps uid)) sid (now + dur)) (now + dur)).1,
          (reapFold now (hsetField (mapFieldsView now (st.maps uid)) sid (now + dur))
            (hsetField (mapFieldsView now (st.maps uid)) sid (now + dur)) (now + dur)).2,
          ?_, ?_, ?_, ?_, ?_, ?_⟩
  · unfold SetUserSessionID userSetSessionIDScript
    simp [updateFn]
  · intro q
    constructor
    · intro hq
      obtain ⟨hq1, hq2⟩ := reapFold_mem_spec now _ _ _ q hq
      exact ⟨hq1, (hq2 hq1).1⟩
    · rintro ⟨hq1, hq2⟩
      refine reapFold_keeps now _ _ _ q ?_ hq1
      intro p hp hpk
      have : p = q := nodup_keys_pair_eq _ hnd1 p q hp hq1 hpk
      rw [this]
      omega
  · intro q hq
    obtain ⟨hq1, hq2⟩ := reapFold_mem_spec now _ _ _ q hq
    exact (hq2 hq1).2
  · obtain ⟨q, hq, hqk⟩ := hsetField_exists_key (mapFieldsView now (st.maps uid)) sid
      (now + dur)
    have hqv : q.2 = now + dur := hsetField_key_all _ sid (now + dur) q hq hqk
    have hqmem : q ∈ (reapFold now
        (hsetField (mapFieldsView now (st.maps uid)) sid (now + dur))
        (hsetField (mapFieldsView now (st.maps uid)) sid (now + dur)) (now + dur)).1 := by
      refine reapFold_keeps now _ _ _ q ?_ hq
      intro p hp hpk
      have : p = q := nodup_keys_pair_eq _ hnd1 p q hp hq (by rw [hpk, hqk])
      rw [this]
      omega
    unfold hgetField
    cases hfind : (reapFold now
        (hsetField (mapFieldsView now (st.maps uid)) sid (now + dur))
        (hsetField (mapFieldsView now (st.maps uid)) sid (now + dur)) (now + dur)).1.find?
        (fun p => p.1 == sid) with
    | none =>
      exfalso
      have : ((reapFold now
          (hsetField (mapFieldsView now (st.maps uid)) sid (now + dur))
          (hsetField (mapFieldsView now (st.maps uid)) sid (now + dur)) (now + dur)).1.find?
          (fun p => p.1 == sid)).isSome :=
        List.find?_isSome.mpr ⟨q, hqmem, by simp [hqk]⟩
      rw [hfind] at this
      simp at this
    | some r =>
      have hrmem := List.mem_of_find?_eq_some hfind
      have hrk : r.1 = sid := by
        have := List.find?_some hfind
        simpa using this
      have hrcur : r ∈ hsetField (mapFieldsView now (st.maps uid)) sid (now + dur) :=
        (reapFold_mem_spec now _ _ _ r hrmem).1
      have hrv : r.2 = now + dur := hsetField_key_all _ sid (now + dur) r hrcur hrk
      simp [hrv]
  · exact reapFold_acc_mono now _ _ _
  · unfold SetUserSessionID userSetSessionIDScript
    simp [updateFn]

/-- Witness for C1 at limit 2, window 1000 ms, calls at 0, 1, 2 ms. -/
theorem fixedWindow_nth_and_rollover_witness :
    (runFixedWindow 2 1000 [0, 1, 2] none).2 =
      some { value := 3, expireAtMs := some 1000 } :=
  (fixedWindow_nth_and_rollover 2 1000 (by decide) (by decide) 0 [1, 2]
    (by decide)).2.1

/-- Witness for C2 on a concrete store, policy and guesses. -/
theorem verifyMobileOTP_lockout_scenario_witness :
    (VerifyMobileOTP "TEST" polSample 1 "LOGIN" "s1" "13800138000" "86" "9999"
      otpStoreWithCode).1 = .error .codeIncorrect :=
  (verifyMobileOTP_lockout_scenario "TEST" polSample 1 2 3 4 "LOGIN" "s1" "13800138000"
    "86" "9999" "9999" "9999" "1234" otpStoreWithCode serializedSample 1000 rfl
    (by decide) (by decide) rfl (by decide) (by decide) (by decide) (by decide)
    (by decide) (by decide) (by decide)).1

/-- Witness for C3 on a concrete store, policy and factory output. -/
theorem sendMobileOTP_then_verify_happy_path_witness :
    (SendMobileOTP "TEST" polSample facSample true 0 "login" 1 "13800138000" "86"
      otpStoreEmpty).1 = .ok "s1" :=
  (sendMobileOTP_then_verify_happy_path "TEST" polSample facSample 0 1 2 "login" 1
    "13800138000" "86" "x" otpStoreEmpty (by decide) (by decide) (by decide)
    (by decide) (by decide) rfl rfl (by decide) (by decide)).1

/-- Witness for C4 (amended claim) on the empty store. -/
theorem setUserSessionID_index_after_set_witness :
    ∃ flds ttlTs,
      (SetUserSessionID 0 "A" 1 100 sessionStoreEmpty).maps 1 =
        some { fields := flds, expireAtSec := some ttlTs } ∧
      (∀ q, q ∈ flds ↔
        (q ∈ hsetField (mapFieldsView 0 (sessionStoreEmpty.maps 1)) "A" (0 + 100) ∧
          0 ≤ q.2)) ∧
      (∀ q ∈ flds, q.2 ≤ ttlTs) ∧
      hgetField flds "A" = some (0 + 100) ∧
      0 + 100 ≤ ttlTs ∧
      (SetUserSessionID 0 "A" 1 100 sessionStoreEmpty).primary "A" =
        some { userID := 1, expireAtSec := some (0 + 100) } :=
  setUserSessionID_index_after_set sessionStoreEmpty 0 "A" 1 100
    (by simp [mapFieldsView, liveMap, sessionStoreEmpty])

/-- Witness for C5 on a concrete credential. -/
theorem setMobileCode_peekMobileCode_roundtrip_witness :
    ∃ res : MobileCode,
      PeekMobileCode "TEST" 1 mcSample.«Type» mcSample.Sequence mcSample.Mobile
          mcSample.CountryCode (SetMobileCode "TEST" 0 mcSample 1000 otpStoreEmpty) =
        .ok res ∧
      res.UserID = mcSample.UserID ∧ res.«Type» = mcSample.«Type» ∧
      res.Sequence = mcSample.Sequence ∧ res.CodeLength = mcSample.CodeLength ∧
      res.Code = mcSample.Code ∧ res.Content = mcSample.Content ∧
      res.Args = mcSample.Args ∧ res.Mobile = mcSample.Mobile ∧
      res.CountryCode = mcSample.CountryCode ∧ res.Format = none :=
  setMobileCode_peekMobileCode_roundtrip "TEST" mcSample 1000 (by decide) 0 1
    (by decide) otpStoreEmpty

/-- Witness for C6: the third send at times 0, 1, 2 ms with limit 2. -/
theorem sendMobileOTP_throttles_third_send_witness :
    (SendMobileOTP "TEST" polSample facSample3 true 2 "login" 1 "13800138000" "86"
        (SendMobileOTP "TEST" polSample facSample2 true 1 "login" 1 "13800138000" "86"
          (SendMobileOTP "TEST" polSample facSample true 0 "login" 1 "13800138000" "86"
            otpStoreEmpty).2.1).2.1).1 = .error .mobileSendLimitExceeded :=
  (sendMobileOTP_throttles_third_send "TEST" polSample facSample facSample2 facSample3
    0 1 2 "login" 1 "13800138000" "86" otpStoreEmpty rfl (by decide) (by decide) rfl
    (by decide) (by decide)).2.2.1

/-- Witness for C7: a wrong guess leaves the concrete credential store intact. -/
theorem verifyMobileOTP_wrong_guess_frame_witness :
    (VerifyMobileOTP "TEST" polSample 1 "LOGIN" "s1" "13800138000" "86" "9999"
      otpStoreWithCode).2.1.codes = otpStoreWithCode.codes :=
  (verifyMobileOTP_wrong_guess_frame "TEST" polSample 1 "LOGIN" "s1" "13800138000" "86"
    "9999" otpStoreWithCode (gobDecodeMobileCode serializedSample) (by decide) rfl
    (by decide) (by decide)).2.1

/-- Witness for C8: resolving a just-issued session succeeds. -/
theorem getUserIDBySessionID_spec_witness :
    (GetUserIDBySessionID 1 "A" 10
      (SetUserSessionID 0 "A" 1 100 sessionStoreEmpty)).1 = .ok 1 :=
  ((getUserIDBySessionID_spec (SetUserSessionID 0 "A" 1 100 sessionStoreEmpty) 1 "A"
    10).2 { userID := 1, expireAtSec := some 100 } rfl).1

/-- Witness for C10: an empty-type send on a store whose quota is half used. -/
theorem sendMobileOTP_empty_type_consumes_quota_witness :
    (SendMobileOTP "TEST" polSample facSample true 1 "" 1 "13800138000" "86"
      otpStoreWithSendCount).1 = .error .codeTypeIsEmpty :=
  ((sendMobileOTP_empty_type_consumes_quota "TEST" polSample facSample true 1 1
    "13800138000" "86" otpStoreWithSendCount 1 10 (by decide) (by decide)
    (by decide) (by decide)).1 (by decide)).1

end GoBiz
